import Mathlib

/-!
Shallow embedding of `browrs` (src/main.rs), a terminal directory browser.

Conventions of the embedding:
* A file or directory name is its byte sequence, modelled as `List Nat`.
  Rust `String` comparison (`Vec::<String>::sort`) is lexicographic on the
  UTF-8 bytes, which is `lexLe` below on the byte lists.
* A filesystem path is the list of name components below the root, so the
  root is `[]`; `PathBuf::parent` drops the last component and is `none`
  at the root, `PathBuf::join name` appends a component.
* The filesystem itself is a parameter (`Fs`): `dirs p` is the outcome of
  `std::fs::read_dir p` (`none` = I/O error), `isDirQ p` is `Path::is_dir`.
* The navigation state `App` carries the four fields the claims are about
  (`current_dir`, `files`, `selected`, `scroll`); the `preview_content`
  and `exit` fields of the Rust struct do not interact with them and are
  elided.
-/

/-- A file name as its sequence of bytes. -/
abbrev Name := List Nat

/-- An absolute path as its components below the filesystem root. -/
abbrev FPath := List Name

/-- Byte-wise lexicographic `≤` on names: the ordering `Vec::<String>::sort`
uses (Rust `String` order is lexicographic on UTF-8 bytes). -/
def lexLe : Name → Name → Bool
  | [], _ => true
  | _ :: _, [] => false
  | a :: as, b :: bs => if a < b then true else if b < a then false else lexLe as bs

/-- `lexLe` as a relation, for the sorting lemmas. -/
def nameLe (a b : Name) : Prop := lexLe a b = true

instance : DecidableRel nameLe := fun a b => inferInstanceAs (Decidable (lexLe a b = true))

/-- Sorting a list of names by `lexLe`: the model of `Vec::<String>::sort`
(a stable sort returning a `lexLe`-sorted permutation of its input). -/
def sortLe (l : List Name) : List Name := List.insertionSort nameLe l

/-- One raw child produced by iterating `std::fs::read_dir`: its file name and
whether `file_type().is_dir()` holds. -/
structure FsEntry where
  name : Name
  isDir : Bool
deriving DecidableEq

/-- The filesystem, as the two queries the navigation code performs. -/
structure Fs where
  /-- Outcome of `std::fs::read_dir p`: the raw children, or `none` on error. -/
  dirs : FPath → Option (List FsEntry)
  /-- Outcome of `Path::is_dir`. -/
  isDirQ : FPath → Bool

/-- The parent-directory sentinel `".."` (bytes of two ASCII dots). -/
def dotdot : Name := [46, 46]

/-- `App::read_dir`: push `".."`, push every non-hidden child (directories get
a trailing `'/'`, byte 47), then sort the whole vector. -/
def read_dir (fs : Fs) (p : FPath) : Option (List Name) :=
  match fs.dirs p with
  | none => none
  | some raw =>
      let children := raw.filterMap fun e =>
        if e.name.head? = some 46 then none
        else some (if e.isDir then e.name ++ [47] else e.name)
      some (sortLe (dotdot :: children))

/-- The navigation state (`App` in src/main.rs, the fields the claims concern). -/
structure App where
  current_dir : FPath
  files : List Name
  selected : Nat
  scroll : Nat
deriving DecidableEq

/-- `PathBuf::parent`: drop the last component; `none` at the filesystem root. -/
def parentDir : FPath → Option FPath
  | [] => none
  | p => some p.dropLast

/-- `str::trim_end_matches('/')`: remove every trailing `'/'` byte. -/
def trimTrailingSlash (n : Name) : Name := (n.reverse.dropWhile (· == 47)).reverse

/-- The directory the Enter handler switches `current_dir` to before it
re-lists: the parent for the sentinel (unchanged at root), the joined child
path when it `is_dir`, and the unchanged directory for a file entry. -/
def enterTarget (fs : Fs) (a : App) (name : Name) : FPath :=
  if name = dotdot then
    match parentDir a.current_dir with
    | some pp => pp
    | none => a.current_dir
  else
    let cand := a.current_dir ++ [trimTrailingSlash name]
    if fs.isDirQ cand then cand else a.current_dir

/-- The `KeyCode::Enter` arm of `App::handle_key_event`: look up the selected
name; for `".."` move to the parent when one exists; otherwise join the name
and either switch into it when it is a directory or hand the file path to the
external editor (no navigation field is touched by that hand-off); finally
re-list `current_dir` unconditionally, and only on success replace `files`
and reset `selected` and `scroll` to 0. -/
def activateEnter (fs : Fs) (a : App) : App :=
  match a.files.get? a.selected with
  | none => a
  | some name =>
      let a1 : App := { a with current_dir := enterTarget fs a name }
      match read_dir fs a1.current_dir with
      | some newFiles => { a1 with files := newFiles, selected := 0, scroll := 0 }
      | none => a1

/-- `App::update_scroll_with_height`: margin-based viewport scrolling; Rust
`saturating_sub` is `Nat` subtraction. -/
def updateScrollWithHeight (a : App) (maxVisible : Nat) : App :=
  if maxVisible = 0 then a
  else
    let scrollThreshold := min 3 maxVisible
    let visiblePos := a.selected - a.scroll
    if visiblePos ≥ maxVisible - scrollThreshold then
      let maxScroll := a.files.length - maxVisible
      if a.scroll < maxScroll then
        { a with scroll := min ((a.selected + scrollThreshold) - (maxVisible - 1)) maxScroll }
      else a
    else if visiblePos < scrollThreshold then
      if a.selected ≥ scrollThreshold then { a with scroll := a.selected - scrollThreshold }
      else { a with scroll := 0 }
    else a

/-!
Preview generation (`App::read_file_preview`, `App::read_dir_preview`).

`read_file_preview` is modelled on the content of a readable file: `bytes`
is the result of `std::fs::read`, and `metadata.len()` agrees with
`bytes.length` (one consistent snapshot). The `Err` branches of
`std::fs::read` / `std::fs::metadata` (the access-error messages) concern
unreadable files and sit outside this model.
-/

/-- Rust's test `b == 0 || (b < 32 && b != 9 && b != 10 && b != 13)` applied
to each of the first 1024 bytes to detect a binary file. -/
def isBinaryByte (b : Nat) : Bool :=
  b == 0 || (b < 32 && b != 9 && b != 10 && b != 13)

/-- A UTF-8 continuation byte, `0x80..=0xBF`. -/
def contB (b : Nat) : Bool := 128 ≤ b && b ≤ 191

/-- UTF-8 validity of a byte sequence: the success condition of Rust's
`String::from_utf8` (two-byte leads `0xC2..=0xDF`, the `0xE0`/`0xED` and
`0xF0`/`0xF4` special ranges excluding overlongs and surrogates). -/
def validUtf8 : List Nat → Bool
  | [] => true
  | b :: rest =>
    if b ≤ 127 then validUtf8 rest
    else if 194 ≤ b && b ≤ 223 then
      match rest with
      | c1 :: r => contB c1 && validUtf8 r
      | [] => false
    else if b = 224 then
      match rest with
      | c1 :: c2 :: r => (160 ≤ c1 && c1 ≤ 191) && contB c2 && validUtf8 r
      | _ => false
    else if (225 ≤ b && b ≤ 236) || (238 ≤ b && b ≤ 239) then
      match rest with
      | c1 :: c2 :: r => contB c1 && contB c2 && validUtf8 r
      | _ => false
    else if b = 237 then
      match rest with
      | c1 :: c2 :: r => (128 ≤ c1 && c1 ≤ 159) && contB c2 && validUtf8 r
      | _ => false
    else if b = 240 then
      match rest with
      | c1 :: c2 :: c3 :: r => (144 ≤ c1 && c1 ≤ 191) && contB c2 && contB c3 && validUtf8 r
      | _ => false
    else if 241 ≤ b && b ≤ 243 then
      match rest with
      | c1 :: c2 :: c3 :: r => contB c1 && contB c2 && contB c3 && validUtf8 r
      | _ => false
    else if b = 244 then
      match rest with
      | c1 :: c2 :: c3 :: r => (128 ≤ c1 && c1 ≤ 143) && contB c2 && contB c3 && validUtf8 r
      | _ => false
    else false

/-- Split a byte sequence at every newline byte 10; segments do not contain
the separator, and a trailing newline yields a trailing empty segment. -/
def splitNl : List Nat → List (List Nat)
  | [] => [[]]
  | b :: r =>
    if b = 10 then [] :: splitNl r
    else
      match splitNl r with
      | h :: t => (b :: h) :: t
      | [] => [[b]]

/-- Drop one trailing carriage-return byte 13, when present. -/
def stripTrailingCR (l : List Nat) : List Nat :=
  if l.getLast? = some 13 then l.dropLast else l

/-- Rust `str::lines` on the byte level: lines end at `\n` or `\r\n` (the
`\r` of a `\r\n` terminator is stripped, a bare trailing `\r` without a
following `\n` is kept), and the final line ending is optional. Byte-level
splitting agrees with `str::lines` because bytes 10 and 13 never occur
inside a multi-byte UTF-8 sequence. -/
def rustLines (bs : List Nat) : List (List Nat) :=
  if bs = [] then []
  else
    let segs := splitNl bs
    if bs.getLast? = some 10 then segs.dropLast.map stripTrailingCR
    else segs.dropLast.map stripTrailingCR ++ [segs.getLastD []]

/-- The classification `App::read_file_preview` makes for a readable,
non-image file, keeping the data its preview string embeds. -/
inductive FilePreview where
  | tooLarge (size : Nat)
  | binaryNotice (size : Nat)
  | invalidEncoding (size : Nat)
  | textPreview (size : Nat) (shownLines : List (List Nat)) (totalLineCount : Nat)
      (truncated : Bool)
deriving DecidableEq

/-- `App::read_file_preview`, in the decision order of the source: the 1 MiB
metadata test, the binary sniff over the first 1024 bytes, the
`String::from_utf8` decode, then the 50-line text preview whose truncation
footer is emitted exactly when the line count exceeds 50. -/
def read_file_preview (bytes : List Nat) : FilePreview :=
  if bytes.length > 1048576 then .tooLarge bytes.length
  else if (bytes.take 1024).any isBinaryByte then .binaryNotice bytes.length
  else if validUtf8 bytes then
    .textPreview bytes.length ((rustLines bytes).take 50) (rustLines bytes).length
      (decide ((rustLines bytes).length > 50))
  else .invalidEncoding bytes.length

/-- Whether a preview outcome is the `TooLarge` notice. -/
def isTooLargeR : FilePreview → Bool
  | .tooLarge _ => true
  | _ => false

/-- Whether a preview outcome is the `BinaryNotice`. -/
def isBinaryR : FilePreview → Bool
  | .binaryNotice _ => true
  | _ => false

/-- Whether a preview outcome is a text preview. -/
def isTextR : FilePreview → Bool
  | .textPreview _ _ _ _ => true
  | _ => false

/-!
`App::read_dir_preview`: modelled on the children of a readable directory.
The model input is the list of `Ok` entries the `std::fs::read_dir`
iterator yields (an `Err` item is skipped by the source's
`if let Ok(entry)` and so never reaches the model); `ftype` is `none` when
`entry.file_type()` fails (the source skips such an entry), and `meta` is
`none` when `entry.metadata()` fails (the source then emits no size suffix
and adds nothing to `total_size`). The `Err` branch of `std::fs::read_dir`
itself (the error message preview) is outside this model of a readable
directory.
-/

/-- One child yielded while iterating a directory for its preview. -/
structure DEntry where
  name : Name
  /-- `some isDir` when `entry.file_type()` succeeds, `none` on failure. -/
  ftype : Option Bool
  /-- `some len` when `entry.metadata()` succeeds, `none` on failure. -/
  meta : Option Nat
deriving DecidableEq

/-- Decimal ASCII digits of a number, as `format!` prints it. -/
def natDigits (n : Nat) : List Nat := (Nat.toDigits 10 n).map Char.toNat

/-- Round `num / den` to the nearest integer, ties to even: the rounding
`format!` applies when printing an exactly-representable binary float to a
fixed number of decimals. -/
def roundHalfEvenDiv (num den : Nat) : Nat :=
  let q := num / den
  let r := num % den
  if den < 2 * r then q + 1
  else if 2 * r < den then q
  else if q % 2 = 0 then q else q + 1

/-- The digits of `format!("{:.1}", sz as f64 / 1024.0)`: `sz / 1024` is
exactly representable, so the printed value is `sz * 10 / 1024` rounded
half-to-even, split around a decimal point (byte 46). -/
def kb1Digits (sz : Nat) : List Nat :=
  let t := roundHalfEvenDiv (sz * 10) 1024
  natDigits (t / 10) ++ [46] ++ natDigits (t % 10)

/-- The size suffix of a file line: `" ({:.1} KB)"` above 1024 bytes,
`" ({} B)"` otherwise, and empty when `entry.metadata()` failed. -/
def sizeInfoBytes : Option Nat → List Nat
  | none => []
  | some sz =>
    if sz > 1024 then [32, 40] ++ kb1Digits sz ++ [32, 75, 66, 41]
    else [32, 40] ++ natDigits sz ++ [32, 66, 41]

/-- The pushed label of a directory child: `format!("📁 {}/", name)`
(the UTF-8 bytes `F0 9F 93 81` of the folder emoji, a space, the name, a
slash). -/
def dirLabel (n : Name) : Name := [240, 159, 147, 129, 32] ++ n ++ [47]

/-- The pushed label of a file child: `format!("📄 {}{}", name, size_info)`
(the UTF-8 bytes `F0 9F 93 84` of the page emoji, a space, the name, the
size suffix). -/
def fileLabel (e : DEntry) : Name := [240, 159, 147, 132, 32] ++ e.name ++ sizeInfoBytes e.meta

/-- The `dirs` vector of `App::read_dir_preview` before sorting: labels of
the non-hidden children whose file type is a directory. -/
def dirLabels (es : List DEntry) : List Name :=
  es.filterMap fun e =>
    if e.name.head? = some 46 then none
    else
      match e.ftype with
      | some true => some (dirLabel e.name)
      | _ => none

/-- The `files` vector of `App::read_dir_preview` before sorting: labels of
the non-hidden children whose file type is not a directory. -/
def fileLabels (es : List DEntry) : List Name :=
  es.filterMap fun e =>
    if e.name.head? = some 46 then none
    else
      match e.ftype with
      | some false => some (fileLabel e)
      | _ => none

/-- `total_size`: the sum of `metadata.len()` over the non-hidden file
children whose metadata is available (only the file branch of the source
adds to `total_size`; directories contribute nothing). -/
def fileSizesSum (es : List DEntry) : Nat :=
  (es.filterMap fun e =>
    if e.name.head? = some 46 then none
    else
      match e.ftype, e.meta with
      | some false, some sz => some sz
      | _, _ => none).sum

/-- The structured content of the directory preview: the counts and totals
the header prints, the at-most-30 listed item labels, and the count the
`"... and N more items"` footer reports (0 when no footer is printed). -/
structure DirPreview where
  dirCount : Nat
  fileCount : Nat
  totalSize : Nat
  listedItems : List Name
  truncatedCount : Nat
deriving DecidableEq

/-- `App::read_dir_preview` on a readable directory: sort the decorated
directory labels and file labels separately, list the first 30 of
directories-then-files, and report the overflow count. -/
def read_dir_preview (es : List DEntry) : DirPreview :=
  let dirs := sortLe (dirLabels es)
  let files := sortLe (fileLabels es)
  let items := dirs ++ files
  { dirCount := dirs.length
    fileCount := files.length
    totalSize := fileSizesSum es
    listedItems := items.take 30
    truncatedCount := if items.length > 30 then items.length - 30 else 0 }

/-!
Order facts about `lexLe` and `sortLe`.
-/

/-- Cons characterisation of the byte-wise order. -/
theorem lexLe_cons {a b : Nat} {as bs : Name} :
    lexLe (a :: as) (b :: bs) = true ↔ a < b ∨ (a = b ∧ lexLe as bs = true) := by
  simp only [lexLe]
  split_ifs with h1 h2
  · simp [h1]
  · simp only [Bool.false_eq_true, false_iff]
    rintro (h | ⟨rfl, -⟩) <;> omega
  · have : a = b := by omega
    subst this
    simp

/-- `lexLe` is total. -/
theorem lexLe_total : ∀ a b : Name, lexLe a b = true ∨ lexLe b a = true
  | [], _ => Or.inl rfl
  | _ :: _, [] => Or.inr rfl
  | a :: as, b :: bs => by
    rcases Nat.lt_trichotomy a b with h | h | h
    · exact Or.inl (lexLe_cons.mpr (Or.inl h))
    · subst h
      rcases lexLe_total as bs with ih | ih
      · exact Or.inl (lexLe_cons.mpr (Or.inr ⟨rfl, ih⟩))
      · exact Or.inr (lexLe_cons.mpr (Or.inr ⟨rfl, ih⟩))
    · exact Or.inr (lexLe_cons.mpr (Or.inl h))

/-- `lexLe` is transitive. -/
theorem lexLe_trans : ∀ (a b c : Name), lexLe a b = true → lexLe b c = true → lexLe a c = true
  | [], _, _, _, _ => rfl
  | _ :: _, [], _, h, _ => by simp [lexLe] at h
  | _ :: _, _ :: _, [], _, h => by simp [lexLe] at h
  | a :: as, b :: bs, c :: cs, h1, h2 => by
    rw [lexLe_cons] at h1 h2 ⊢
    rcases h1 with h1 | ⟨rfl, h1⟩
    · rcases h2 with h2 | ⟨rfl, h2⟩
      · exact Or.inl (Nat.lt_trans h1 h2)
      · exact Or.inl h1
    · rcases h2 with h2 | ⟨rfl, h2⟩
      · exact Or.inl h2
      · exact Or.inr ⟨rfl, lexLe_trans as bs cs h1 h2⟩

/-- `lexLe` is antisymmetric. -/
theorem lexLe_antisymm : ∀ (a b : Name), lexLe a b = true → lexLe b a = true → a = b
  | [], [], _, _ => rfl
  | [], _ :: _, _, h => by simp [lexLe] at h
  | _ :: _, [], h, _ => by simp [lexLe] at h
  | a :: as, b :: bs, h1, h2 => by
    rw [lexLe_cons] at h1 h2
    rcases h1 with h1 | ⟨rfl, h1⟩
    · rcases h2 with h2 | ⟨e2, h2⟩ <;> omega
    · rcases h2 with h2 | ⟨e2, h2⟩
      · omega
      · exact congrArg (a :: ·) (lexLe_antisymm as bs h1 h2)

instance : IsTotal Name nameLe := ⟨lexLe_total⟩

instance : IsTrans Name nameLe := ⟨lexLe_trans⟩

/-- The model sort returns a `lexLe`-sorted list. -/
theorem sortLe_sorted (l : List Name) : List.Sorted nameLe (sortLe l) :=
  List.sorted_insertionSort nameLe l

/-- The model sort permutes its input, so membership is preserved. -/
theorem mem_sortLe {l : List Name} {x : Name} : x ∈ sortLe l ↔ x ∈ l :=
  (List.perm_insertionSort nameLe l).mem_iff

/-- In a sorted list, an element below every member is the head. -/
theorem head_of_min {l : List Name} {x : Name} (hs : List.Sorted nameLe l)
    (hx : x ∈ l) (hmin : ∀ y ∈ l, nameLe x y) : l.head? = some x := by
  cases l with
  | nil => cases hx
  | cons h t =>
    have hxh : nameLe x h := hmin h (List.mem_cons_self h t)
    rcases List.mem_cons.mp hx with rfl | hxt
    · rfl
    · have hhx : nameLe h x := (List.pairwise_cons.mp hs).1 x hxt
      rw [lexLe_antisymm h x hhx hxh]
      rfl

/-!
Shared unfolding of the Enter handler, and concrete filesystems and states
used as inputs below.
-/

/-- When the selected name exists, the Enter handler moves `current_dir` to
the target and then either installs the fresh listing with selection and
scroll reset to 0, or, when the re-listing fails, changes nothing further. -/
theorem activateEnter_eq (fs : Fs) (a : App) (name : Name)
    (h : a.files.get? a.selected = some name) :
    activateEnter fs a =
      match read_dir fs (enterTarget fs a name) with
      | some nf => ⟨enterTarget fs a name, nf, 0, 0⟩
      | none => { a with current_dir := enterTarget fs a name } := by
  unfold activateEnter
  rw [h]

/-- A filesystem whose root holds one readable file named `"a"`. -/
def fsA : Fs := ⟨fun p => if p = [] then some [⟨[97], false⟩] else none, fun _ => false⟩

/-- A filesystem whose root holds one readable file named `"!a"`. -/
def fsBang : Fs := ⟨fun p => if p = [] then some [⟨[33, 97], false⟩] else none, fun _ => false⟩

/-- A filesystem on which every directory read fails. -/
def fsNone : Fs := ⟨fun _ => none, fun _ => false⟩

/-!
Claim C1 — order of the listed entries.
-/

/-- C1 fails on the code: the source sorts the sentinel together with the
real child names (`entries.sort()` runs after `".."` is pushed), so on a
directory with one file `"!a"` (bytes 33, 97; `'!' < '.'`) the lister
succeeds but puts `"!a"` before the sentinel. -/
theorem c1_counterexample :
    read_dir fsBang [] = some [[33, 97], dotdot] ∧
      ([[33, 97], dotdot] : List Name).head? ≠ some dotdot := by decide

/-- C1 (amended): on success the returned entry list is, as a whole and with
the sentinel included, sorted by name in byte order; the sentinel is a
member and it is the first element whenever it compares at or below every
returned name (which holds unless some child name begins with a byte below
`'.'`), but it is ordered against the child names like any other entry. -/
theorem c1_amended (fs : Fs) (p : FPath) (l : List Name)
    (h : read_dir fs p = some l) :
    List.Sorted nameLe l ∧ dotdot ∈ l ∧
      ((∀ y ∈ l, nameLe dotdot y) → l.head? = some dotdot) := by
  unfold read_dir at h
  cases hd : fs.dirs p with
  | none => rw [hd] at h; cases h
  | some raw =>
      rw [hd] at h
      simp only [Option.some.injEq] at h
      subst h
      refine ⟨sortLe_sorted _, mem_sortLe.mpr (List.mem_cons_self _ _), fun hmin => ?_⟩
      exact head_of_min (sortLe_sorted _) (mem_sortLe.mpr (List.mem_cons_self _ _)) hmin

/-- C1 amended, on the root of `fsA` (one child `"a"`). -/
theorem c1_witness :
    List.Sorted nameLe [dotdot, [97]] ∧ dotdot ∈ [dotdot, [97]] ∧
      ((∀ y ∈ ([dotdot, [97]] : List Name), nameLe dotdot y) →
        ([dotdot, [97]] : List Name).head? = some dotdot) :=
  c1_amended fsA [] [dotdot, [97]] (by decide)

/-!
Claim C2 — a failed re-listing after a directory switch.
-/

/-- C2 fails on the code: the handler assigns `current_dir` before it tries
to re-list, and a failed `read_dir` does not roll it back. From `"/a"` with
the sentinel selected and every directory read failing, the re-listing of
the parent fails, yet `current_dir` has moved to the root. -/
theorem c2_counterexample :
    read_dir fsNone [] = none ∧
      activateEnter fsNone ⟨[[97]], [dotdot], 0, 0⟩ = ⟨[], [dotdot], 0, 0⟩ ∧
      activateEnter fsNone ⟨[[97]], [dotdot], 0, 0⟩ ≠ ⟨[[97]], [dotdot], 0, 0⟩ := by decide

/-- C2 (amended): when the selected entry is the sentinel with an existing
parent, or a directory entry, and the re-listing of the target directory
fails, then `files`, `selected` and `scroll` are exactly as before, while
`current_dir` stays switched to the target (which differs from the old
directory): the switch of `current_dir` is not rolled back. -/
theorem c2_amended (fs : Fs) (a : App) (name : Name)
    (hsel : a.files.get? a.selected = some name)
    (hdir : (name = dotdot ∧ parentDir a.current_dir ≠ none) ∨
      (name ≠ dotdot ∧ fs.isDirQ (a.current_dir ++ [trimTrailingSlash name]) = true))
    (hfail : read_dir fs (enterTarget fs a name) = none) :
    activateEnter fs a = { a with current_dir := enterTarget fs a name } ∧
      enterTarget fs a name ≠ a.current_dir := by
  constructor
  · rw [activateEnter_eq fs a name hsel, hfail]
  · rcases hdir with ⟨rfl, hp⟩ | ⟨hne, hd⟩
    · cases hcd : a.current_dir with
      | nil => rw [hcd] at hp; exact absurd rfl hp
      | cons x xs =>
          unfold enterTarget
          rw [if_pos rfl, hcd]
          simp only [parentDir]
          intro he
          have := congrArg List.length he
          simp [List.length_dropLast] at this
    · unfold enterTarget
      rw [if_neg hne]
      simp only [hd, if_pos]
      intro he
      have := congrArg List.length he
      simp at this

/-- C2 amended, from `"/b"` with the sentinel selected on a filesystem where
every directory read fails. -/
theorem c2_witness :
    activateEnter fsNone ⟨[[98]], [dotdot], 0, 0⟩ =
      { (⟨[[98]], [dotdot], 0, 0⟩ : App) with
        current_dir := enterTarget fsNone ⟨[[98]], [dotdot], 0, 0⟩ dotdot } ∧
      enterTarget fsNone ⟨[[98]], [dotdot], 0, 0⟩ dotdot ≠ [[98]] :=
  c2_amended fsNone ⟨[[98]], [dotdot], 0, 0⟩ dotdot (by decide)
    (Or.inl ⟨rfl, by decide⟩) (by decide)

/-!
Claim C3 — the viewport invariant of the scroll computation.
-/

/-- A state of ten entries with the first entry selected and no prior
scroll. -/
def app3 : App := ⟨[], List.replicate 10 [97], 0, 0⟩

/-- C3 fails on the code at `visible_height = 1`: with 10 entries, selection
0 and prior offset 0 (all within the claim's ranges), the computation
returns offset 1, so the selection sits above the visible window. -/
theorem c3_counterexample :
    (0 : Nat) < 1 ∧ app3.selected < app3.files.length ∧
      app3.scroll ≤ app3.files.length - 1 ∧
      (updateScrollWithHeight app3 1).scroll = 1 ∧
      ¬((updateScrollWithHeight app3 1).scroll ≤ app3.selected) := by decide

/-- C3 (amended): the window invariant
`new_offset ≤ selected < new_offset + h` holds for every entry count,
selection, and admissible prior offset once the visible height is at least
4, i.e. strictly larger than the margin `min 3 h`; for heights 1 to 3 the
bottom-edge branch always fires and can push the window past the
selection. -/
theorem c3_amended (a : App) (h : Nat) (hh : 4 ≤ h)
    (hsel : a.selected < a.files.length)
    (hprior : a.scroll ≤ a.files.length - h) :
    (updateScrollWithHeight a h).scroll ≤ a.selected ∧
      a.selected < (updateScrollWithHeight a h).scroll + h := by
  unfold updateScrollWithHeight
  rw [if_neg (by omega : ¬ h = 0)]
  simp only [ge_iff_le]
  split_ifs <;> (try dsimp only) <;> omega

/-- C3 amended, at 10 entries, selection 5, prior offset 2, height 4. -/
theorem c3_witness :
    (updateScrollWithHeight ⟨[], List.replicate 10 [97], 5, 2⟩ 4).scroll ≤
        (⟨[], List.replicate 10 [97], 5, 2⟩ : App).selected ∧
      (⟨[], List.replicate 10 [97], 5, 2⟩ : App).selected <
        (updateScrollWithHeight ⟨[], List.replicate 10 [97], 5, 2⟩ 4).scroll + 4 :=
  c3_amended ⟨[], List.replicate 10 [97], 5, 2⟩ 4 (by decide) (by decide) (by decide)

/-!
Claims C4 and C5 — what Enter changes at the root sentinel and on a file.
-/

/-- A filesystem whose root holds one readable file named `"!a"`, used as the
state of the browser sitting at the root: the listing there is
`["!a", ".."]`, so the sentinel sits at index 1. -/
def appRoot : App := ⟨[], [[33, 97], dotdot], 1, 0⟩

/-- C4 fails on the code: even at the filesystem root, activating the
sentinel still re-lists the current directory, and the successful re-listing
resets `selected_index` from 1 to 0 (the listing `["!a", ".."]` places the
sentinel at index 1). -/
theorem c4_counterexample :
    appRoot.files.get? appRoot.selected = some dotdot ∧
      parentDir appRoot.current_dir = none ∧
      activateEnter fsBang appRoot = ⟨[], [[33, 97], dotdot], 0, 0⟩ ∧
      activateEnter fsBang appRoot ≠ appRoot := by decide

/-- C4 (amended): activating the sentinel at the filesystem root leaves
`current_dir` unchanged, but is not a no-op: the current directory is still
re-listed, and on success the fresh listing replaces `entries` while
`selected_index` and `scroll_offset` reset to 0; only when the re-listing
fails is the whole state unchanged. -/
theorem c4_amended (fs : Fs) (a : App)
    (hsel : a.files.get? a.selected = some dotdot)
    (hroot : parentDir a.current_dir = none) :
    (activateEnter fs a).current_dir = a.current_dir ∧
      (∀ nf, read_dir fs a.current_dir = some nf →
        activateEnter fs a = { a with files := nf, selected := 0, scroll := 0 }) ∧
      (read_dir fs a.current_dir = none → activateEnter fs a = a) := by
  have htgt : enterTarget fs a dotdot = a.current_dir := by
    unfold enterTarget
    rw [if_pos rfl, hroot]
  have he := activateEnter_eq fs a dotdot hsel
  rw [htgt] at he
  cases hr : read_dir fs a.current_dir with
  | some nf =>
      rw [hr] at he
      refine ⟨by rw [he], fun nf2 h2 => ?_, fun h2 => by cases h2⟩
      cases h2
      exact he
  | none =>
      rw [hr] at he
      refine ⟨?_, ?_, ?_⟩
      · rw [he]
      · intro nf2 h2
        cases h2
      · intro h2
        rw [he]

/-- C4 amended, at the root of `fsBang` with the sentinel selected. -/
theorem c4_witness :
    (activateEnter fsBang appRoot).current_dir = appRoot.current_dir ∧
      (∀ nf, read_dir fsBang appRoot.current_dir = some nf →
        activateEnter fsBang appRoot =
          { appRoot with files := nf, selected := 0, scroll := 0 }) ∧
      (read_dir fsBang appRoot.current_dir = none →
        activateEnter fsBang appRoot = appRoot) :=
  c4_amended fsBang appRoot (by decide) (by decide)

/-- A state at the root of `fsA` with the file `"a"` selected (index 1 of
the listing `["..", "a"]`). -/
def appFile : App := ⟨[], [dotdot, [97]], 1, 0⟩

/-- C5 fails on the code: after the file is handed to the editor, the
handler still re-lists the current directory and the successful re-listing
resets `selected_index` from 1 to 0. -/
theorem c5_counterexample :
    appFile.files.get? appFile.selected = some [97] ∧
      fsA.isDirQ (appFile.current_dir ++ [trimTrailingSlash [97]]) = false ∧
      activateEnter fsA appFile = ⟨[], [dotdot, [97]], 0, 0⟩ ∧
      activateEnter fsA appFile ≠ appFile := by decide

/-- C5 (amended): activating a file entry leaves `current_dir` unchanged and
only hands the path to the external editor, but the handler then re-lists
the current directory: on success `entries` is replaced by the fresh listing
and `selected_index` and `scroll_offset` reset to 0; only when the
re-listing fails is the state fully unchanged. -/
theorem c5_amended (fs : Fs) (a : App) (name : Name)
    (hsel : a.files.get? a.selected = some name)
    (hfile : name ≠ dotdot)
    (hnotdir : fs.isDirQ (a.current_dir ++ [trimTrailingSlash name]) = false) :
    (activateEnter fs a).current_dir = a.current_dir ∧
      (∀ nf, read_dir fs a.current_dir = some nf →
        activateEnter fs a = { a with files := nf, selected := 0, scroll := 0 }) ∧
      (read_dir fs a.current_dir = none → activateEnter fs a = a) := by
  have htgt : enterTarget fs a name = a.current_dir := by
    unfold enterTarget
    rw [if_neg hfile]
    simp only [hnotdir, Bool.false_eq_true, if_false]
  have he := activateEnter_eq fs a name hsel
  rw [htgt] at he
  cases hr : read_dir fs a.current_dir with
  | some nf =>
      rw [hr] at he
      refine ⟨by rw [he], fun nf2 h2 => ?_, fun h2 => by cases h2⟩
      cases h2
      exact he
  | none =>
      rw [hr] at he
      refine ⟨?_, ?_, ?_⟩
      · rw [he]
      · intro nf2 h2
        cases h2
      · intro h2
        rw [he]

/-- C5 amended, at the root of `fsA` with the file `"a"` selected. -/
theorem c5_witness :
    (activateEnter fsA appFile).current_dir = appFile.current_dir ∧
      (∀ nf, read_dir fsA appFile.current_dir = some nf →
        activateEnter fsA appFile =
          { appFile with files := nf, selected := 0, scroll := 0 }) ∧
      (read_dir fsA appFile.current_dir = none →
        activateEnter fsA appFile = appFile) :=
  c5_amended fsA appFile [97] (by decide) (by decide) (by decide)

/-!
Claims C6–C8 and C10 — file preview classification.
-/

/-- C6: for a readable non-image file the preview is the `TooLarge` notice
exactly when the byte size strictly exceeds 1,048,576; in particular a file
of exactly 1,048,576 bytes is never `TooLarge` and one of 1,048,577 bytes
always is. -/
theorem c6_size_threshold (bytes : List Nat) :
    isTooLargeR (read_file_preview bytes) = decide (1048576 < bytes.length) := by
  unfold read_file_preview
  split_ifs with h1 h2 h3 <;> simp [isTooLargeR] <;> omega

/-- The byte test of the binary sniff, spelled arithmetically. -/
theorem isBinaryByte_iff (b : Nat) :
    isBinaryByte b = true ↔ b = 0 ∨ (b < 32 ∧ b ≠ 9 ∧ b ≠ 10 ∧ b ≠ 13) := by
  simp [isBinaryByte]
  tauto

/-- A ten-byte file of printable ASCII except for one null byte. -/
def exNull : List Nat := [104, 101, 108, 108, 111, 0, 119, 111, 114, 108]

/-- `exNull` with the null byte replaced by a newline. -/
def exNewline : List Nat := [104, 101, 108, 108, 111, 10, 119, 111, 114, 108]

/-- C7: a readable non-image file of at most 1,048,576 bytes is classified
`BinaryNotice` exactly when one of its first 1024 bytes is a null byte or a
control byte other than 9, 10, 13; the ten-byte file with one null byte is
binary, and the same file with a newline instead previews as text. -/
theorem c7_binary_detection :
    (∀ (bytes : List Nat), bytes.length ≤ 1048576 →
      (isBinaryR (read_file_preview bytes) = true ↔
        ∃ b ∈ bytes.take 1024, b = 0 ∨ (b < 32 ∧ b ≠ 9 ∧ b ≠ 10 ∧ b ≠ 13))) ∧
      isBinaryR (read_file_preview exNull) = true ∧
      isTextR (read_file_preview exNewline) = true := by
  refine ⟨fun bytes hlen => ?_, by decide, by decide⟩
  unfold read_file_preview
  rw [if_neg (by omega : ¬ bytes.length > 1048576)]
  by_cases hb : (bytes.take 1024).any isBinaryByte = true
  · rw [if_pos hb]
    simp only [isBinaryR, true_iff]
    rw [List.any_eq_true] at hb
    obtain ⟨b, hbm, hbb⟩ := hb
    exact ⟨b, hbm, (isBinaryByte_iff b).mp hbb⟩
  · rw [if_neg hb]
    have hnone : ¬ ∃ b ∈ bytes.take 1024, b = 0 ∨ (b < 32 ∧ b ≠ 9 ∧ b ≠ 10 ∧ b ≠ 13) := by
      rintro ⟨b, hbm, hbp⟩
      exact hb (List.any_eq_true.mpr ⟨b, hbm, (isBinaryByte_iff b).mpr hbp⟩)
    split_ifs <;> simpa [isBinaryR] using hnone

/-- C7, on the two ten-byte files. -/
theorem c7_witness :
    exNull.length ≤ 1048576 ∧
      (isBinaryR (read_file_preview exNull) = true ↔
        ∃ b ∈ exNull.take 1024, b = 0 ∨ (b < 32 ∧ b ≠ 9 ∧ b ≠ 10 ∧ b ≠ 13)) :=
  ⟨by decide, c7_binary_detection.1 exNull (by decide)⟩

/-- A 51-line file: `"a\n"` repeated 51 times. -/
def ex51 : List Nat := (List.replicate 51 [97, 10]).flatten

/-- C8: a readable text file (small enough, not sniffed binary, valid
UTF-8) previews as the first 50 of its lines — so `min 50 total` lines are
shown — with the full line count recorded and the truncation footer exactly
when more than 50 lines exist; the 51-line file shows 50 lines, counts 51,
and is truncated. -/
theorem c8_text_truncation :
    (∀ (bytes : List Nat), bytes.length ≤ 1048576 →
      (bytes.take 1024).any isBinaryByte = false → validUtf8 bytes = true →
      read_file_preview bytes =
        .textPreview bytes.length ((rustLines bytes).take 50) (rustLines bytes).length
          (decide ((rustLines bytes).length > 50)) ∧
      ((rustLines bytes).take 50).length = min 50 (rustLines bytes).length) ∧
      read_file_preview ex51 =
        .textPreview 102 ((rustLines ex51).take 50) 51 true ∧
      ((rustLines ex51).take 50).length = 50 ∧ (rustLines ex51).length = 51 := by
  refine ⟨fun bytes hlen hb hv => ?_, by decide, by decide, by decide⟩
  unfold read_file_preview
  rw [if_neg (by omega : ¬ bytes.length > 1048576), if_neg (by simp [hb]), if_pos hv]
  exact ⟨rfl, by simp [List.length_take]⟩

/-- C8, on the 51-line file. -/
theorem c8_witness :
    ex51.length ≤ 1048576 ∧ (ex51.take 1024).any isBinaryByte = false ∧
      validUtf8 ex51 = true ∧
      (read_file_preview ex51 =
        .textPreview ex51.length ((rustLines ex51).take 50) (rustLines ex51).length
          (decide ((rustLines ex51).length > 50)) ∧
      ((rustLines ex51).take 50).length = min 50 (rustLines ex51).length) :=
  ⟨by decide, by decide, by decide, c8_text_truncation.1 ex51 (by decide) (by decide) (by decide)⟩

/-- A three-byte file `"hi"` plus the byte 0xFF, which is not valid UTF-8
although every byte is at least 32. -/
def exInvalid : List Nat := [104, 105, 255]

/-- C10: the binary sniff looks only at byte values below 32, so a readable
non-image file of at most 1,048,576 bytes whose first 1024 bytes are all at
least 32 is never `BinaryNotice`; when such content is not valid UTF-8 the
preview is the `InvalidEncoding` notice instead. -/
theorem c10_high_bytes_not_binary (bytes : List Nat)
    (hlen : bytes.length ≤ 1048576)
    (hmem : ∀ b ∈ bytes.take 1024, 32 ≤ b) :
    isBinaryR (read_file_preview bytes) = false ∧
      (validUtf8 bytes = false →
        read_file_preview bytes = .invalidEncoding bytes.length) := by
  have hb : ¬ ((bytes.take 1024).any isBinaryByte = true) := by
    rw [List.any_eq_true]
    rintro ⟨b, hbm, hbb⟩
    have h32 := hmem b hbm
    rw [isBinaryByte_iff] at hbb
    omega
  unfold read_file_preview
  rw [if_neg (by omega : ¬ bytes.length > 1048576), if_neg hb]
  split_ifs with hv
  · exact ⟨rfl, fun hcontra => by rw [hv] at hcontra; cases hcontra⟩
  · exact ⟨rfl, fun _ => rfl⟩

/-- C10, on the file `"hi"` plus 0xFF. -/
theorem c10_witness :
    isBinaryR (read_file_preview exInvalid) = false ∧
      (validUtf8 exInvalid = false →
        read_file_preview exInvalid = .invalidEncoding exInvalid.length) :=
  c10_high_bytes_not_binary exInvalid (by decide) (by decide)

/-!
Claim C9 — the directory summary preview.
-/

/-- A readable directory with two visible subdirectories named `"a"` and
`"a "` (`'a'` then a space). -/
def cexDE : List DEntry := [⟨[97], some true, none⟩, ⟨[97, 32], some true, none⟩]

/-- C9 fails on the code in its sorting part: the source sorts the decorated
label strings, not the names. For the subdirectories `"a"` and `"a "`, the
labels compare by the byte after the name — `'/'` (47) for `"a"` against
`' '` (32) for `"a "` — so `"a "` is listed before `"a"`, although `"a"`
strictly precedes `"a "` in byte order of names. -/
theorem c9_counterexample :
    (read_dir_preview cexDE).listedItems = [dirLabel [97, 32], dirLabel [97]] ∧
      lexLe [97] [97, 32] = true ∧ [97] ≠ [97, 32] := by decide

/-- C9 (amended): the preview lists at most 30 non-hidden children,
directories first and then files, each group sorted by the byte order of its
rendered label (icon, name, then a trailing slash for directories or the
size suffix for files — which matches name order except when one name
extends another with a byte comparing below the appended marker); the
overflow count is reported as `truncated_count`, only file children's byte
sizes are summed into `total_bytes`, and 45 visible children give exactly 30
listed items and an overflow of 15. -/
theorem c9_amended (es : List DEntry) :
    (read_dir_preview es).listedItems =
        (sortLe (dirLabels es) ++ sortLe (fileLabels es)).take 30 ∧
      List.Sorted nameLe (sortLe (dirLabels es)) ∧
      List.Sorted nameLe (sortLe (fileLabels es)) ∧
      (read_dir_preview es).listedItems.length =
        min 30 ((dirLabels es).length + (fileLabels es).length) ∧
      (read_dir_preview es).truncatedCount =
        (dirLabels es).length + (fileLabels es).length - 30 ∧
      (read_dir_preview es).totalSize = fileSizesSum es ∧
      ((dirLabels es).length + (fileLabels es).length = 45 →
        (read_dir_preview es).listedItems.length = 30 ∧
          (read_dir_preview es).truncatedCount = 15) := by
  have hld : (sortLe (dirLabels es)).length = (dirLabels es).length :=
    (List.perm_insertionSort nameLe (dirLabels es)).length_eq
  have hlf : (sortLe (fileLabels es)).length = (fileLabels es).length :=
    (List.perm_insertionSort nameLe (fileLabels es)).length_eq
  simp only [read_dir_preview]
  refine ⟨trivial, sortLe_sorted _, sortLe_sorted _, ?_, ?_, trivial, fun h45 => ?_⟩
  · rw [List.length_take, List.length_append, hld, hlf]
  · rw [List.length_append, hld, hlf]
    split_ifs <;> omega
  · constructor
    · rw [List.length_take, List.length_append, hld, hlf, h45]
      decide
    · rw [List.length_append, hld, hlf, h45]
      split_ifs <;> omega

/-- A directory of 45 visible file children named by single bytes 65 to
109. -/
def es45 : List DEntry := (List.range 45).map fun i => ⟨[65 + i], some false, none⟩

/-- C9 amended, on the 45-child directory. -/
theorem c9_witness :
    (dirLabels es45).length + (fileLabels es45).length = 45 ∧
      ((read_dir_preview es45).listedItems.length = 30 ∧
        (read_dir_preview es45).truncatedCount = 15) :=
  ⟨by decide, (c9_amended es45).2.2.2.2.2.2 (by decide)⟩
